import Mathlib

/-!
A verification model of the authentication and authorization core of this
repository: the permission evaluator and audit event names embedded in
src/NODE_RED_AUTH_DEEP_DIVE.md, the Cognito permission mapping of
src/dev-settings.js, and the rate limiter and session/token manager whose
behaviour the repository documents (their module files /auth/strategies.js
and /auth/tokens.js are not part of this repository snapshot, so they are
modelled from the specification).
-/

namespace NodeRedAuth

/-- Character class of the JavaScript regex metacharacter dot (no dotAll
flag): any character except a line terminator. -/
def jsRegexDot (c : Char) : Bool :=
  !(c == '\n' || c == '\r' || c.toNat == 0x2028 || c.toNat == 0x2029)

/-- Decides whether a character list decomposes as q ++ dv with q a nonempty
run of characters matched by the regex dot. With dv = . :: verb this is the
optional group ((.+)\.) of the source regex followed by the verb. -/
def suffixCheck (dv : List Char) : List Char → Bool
  | [] => false
  | c :: rest => jsRegexDot c && (rest == dv || suffixCheck dv rest)

/-- The anchored test ^((.+)\.)?verb$ used by hasPermission in
src/NODE_RED_AUTH_DEEP_DIVE.md lines 216 and 219: the permission is the bare
verb, or a nonempty dot-matched prefix, a literal dot, and the verb. -/
def jsRegexTestDotVerb (verb p : String) : Bool :=
  p == verb || suffixCheck ('.' :: verb.data) p.data

/-- The string-versus-string core of hasPermission
(src/NODE_RED_AUTH_DEEP_DIVE.md lines 197-223), reached once neither
argument is an array: rule 1 (empty permission), rule 4 (wildcard scope or
exact match), rule 5 (read and write hierarchy), final false. -/
def hasPermissionStrStr (userScope p : String) : Bool :=
  if p == "" then true
  else if userScope == "*" || userScope == p then true
  else if userScope == "read" || userScope == "*.read" then jsRegexTestDotVerb "read" p
  else if userScope == "write" || userScope == "*.write" then jsRegexTestDotVerb "write" p
  else false

/-- A scope or permission value of the source: a string or an array of
further such values, as consumed by the recursive hasPermission of
src/NODE_RED_AUTH_DEEP_DIVE.md lines 197-223. -/
inductive Perm where
  | str : String → Perm
  | arr : List Perm → Perm

mutual
/-- hasPermission of src/NODE_RED_AUTH_DEEP_DIVE.md specialized to a string
permission p: rule 1 fires first for the empty permission, an array scope is
a disjunction over its members (rule 3), a string scope falls to the
string-versus-string core. -/
def hasPermissionScope (p : String) : Perm → Bool
  | Perm.str s => hasPermissionStrStr s p
  | Perm.arr ss => if p == "" then true else hasPermissionScopeAny p ss

/-- Rule 3 of hasPermission: some member of the scope array grants p. -/
def hasPermissionScopeAny (p : String) : List Perm → Bool
  | [] => false
  | s :: ss => hasPermissionScope p s || hasPermissionScopeAny p ss
end

mutual
/-- hasPermission of src/NODE_RED_AUTH_DEEP_DIVE.md lines 197-223. A string
permission is handled by hasPermissionScope (rules 1, 3, 4, 5); an array
permission is a conjunction over its members (rule 2), which the source
checks before inspecting the scope. -/
def hasPermission (userScope : Perm) : Perm → Bool
  | Perm.str p => hasPermissionScope p userScope
  | Perm.arr ps => hasPermissionAll userScope ps

/-- Rule 2 of hasPermission: every member of the permission array is granted. -/
def hasPermissionAll (userScope : Perm) : List Perm → Bool
  | [] => true
  | p :: ps => hasPermission userScope p && hasPermissionAll userScope ps
end

/-- The fields of the Cognito user-info object that
mapCognitoToNodeRedPermissions of src/dev-settings.js reads: the
cognito:groups claim and the email claim, either of which may be absent. -/
structure UserInfo where
  cognitoGroups : Option (List String)
  email : Option String

/-- mapCognitoToNodeRedPermissions of src/dev-settings.js lines 25-43:
admin groups or a company email yield the wildcard scope, the editor group
yields a three-capability array, every other authenticated user gets read. -/
def mapCognitoToNodeRedPermissions (userInfo : UserInfo) : Perm :=
  let groups := userInfo.cognitoGroups.getD []
  let email := userInfo.email.getD ""
  if groups.contains "node-red-admins" || email.endsWith "@yourcompany.com" then
    Perm.str "*"
  else if groups.contains "node-red-editors" then
    Perm.arr [Perm.str "flows.read", Perm.str "flows.write", Perm.str "nodes.read"]
  else
    Perm.str "read"

/-- Sliding-window length in milliseconds for login rate limiting
(src/NODE_RED_AUTH_DEEP_DIVE.md line 506). -/
def loginSignInWindow : Nat := 600000

/-- Maximum failed attempts per username per window
(src/NODE_RED_AUTH_DEEP_DIVE.md line 507). -/
def maxAttempts : Nat := 5

/-- Modelled from the spec: the rate-limiter attempt table of section 4.3
(its implementation in /auth/strategies.js is not in this snapshot), a
per-username list of failure timestamps. -/
def AttemptTable : Type := List (String × List Nat)

/-- Modelled from the spec: drop timestamps that fall outside the trailing
window ending at now. -/
def pruneOld (now : Nat) (ts : List Nat) : List Nat :=
  ts.filter (fun t => now - t < loginSignInWindow)

/-- The recorded failure timestamps for a key, empty when the key has none. -/
def getAttempts (tbl : AttemptTable) (key : String) : List Nat :=
  match List.find? (fun e => e.1 == key) tbl with
  | some e => e.2
  | none => []

/-- Replace the entry for a key, or append a fresh one. -/
def setAttempts (tbl : AttemptTable) (key : String) (ts : List Nat) : AttemptTable :=
  match tbl with
  | [] => [(key, ts)]
  | e :: rest => if e.1 == key then (key, ts) :: rest else e :: setAttempts rest key ts

/-- Modelled from the spec: recordFailure of section 4.3 prunes expired
timestamps for the key, then appends the current one. -/
def recordFailure (tbl : AttemptTable) (key : String) (now : Nat) : AttemptTable :=
  setAttempts tbl key (pruneOld now (getAttempts tbl key) ++ [now])

/-- The number of failures for a key inside the trailing window at now. -/
def recentFailureCount (tbl : AttemptTable) (key : String) (now : Nat) : Nat :=
  (pruneOld now (getAttempts tbl key)).length

/-- Modelled from the spec: isBlocked of section 4.3 prunes, then compares
the remaining count with the threshold. -/
def isBlocked (tbl : AttemptTable) (key : String) (now : Nat) : Bool :=
  maxAttempts ≤ recentFailureCount tbl key now

/-- Modelled from the spec: reset of section 4.3 clears a key's history
(called after a successful authentication). -/
def resetAttempts (tbl : AttemptTable) (key : String) : AttemptTable :=
  tbl.filter (fun e => !(e.1 == key))

/-- A configured identity record of the credential store: username, stored
secret hash, declared permission scope (the user object of
src/NODE_RED_AUTH_DEEP_DIVE.md lines 152-161). -/
def UserTable : Type := List (String × String × Perm)

/-- Look up a configured user record by username. -/
def findUser (users : UserTable) (username : String) : Option (String × Perm) :=
  (List.find? (fun e => e.1 == username) users).map (fun e => e.2)

/-- Modelled from the spec: the constant-time hash comparison of section 4.2,
abstracted to an equality test between the stored hash and the presented
secret (the bcrypt internals are irrelevant to the claims checked here). -/
def compareSecret (storedHash presented : String) : Bool :=
  storedHash == presented

/-- Typed outcome of one credential-exchange attempt (section 7 taxonomy). -/
inductive LoginResult where
  | success : Perm → LoginResult
  | rateLimited : LoginResult
  | badSecret : LoginResult
  | unknownUser : LoginResult

/-- What one login attempt produces: the typed result, the updated
rate-limiter table, and whether the hash comparison was invoked. -/
structure LoginOutcome where
  result : LoginResult
  attempts : AttemptTable
  hashInvoked : Bool

/-- Modelled from the spec: the credentials strategy of section 4.5 — check
isBlocked first and return RateLimited without touching the credential
store; otherwise verify, recording the failure or resetting the key. -/
def attemptLogin (users : UserTable) (tbl : AttemptTable) (now : Nat)
    (username presented : String) : LoginOutcome :=
  if isBlocked tbl username now then
    ⟨LoginResult.rateLimited, tbl, false⟩
  else
    match findUser users username with
    | none => ⟨LoginResult.unknownUser, recordFailure tbl username now, false⟩
    | some (storedHash, scope) =>
      if compareSecret storedHash presented then
        ⟨LoginResult.success scope, resetAttempts tbl username, true⟩
      else
        ⟨LoginResult.badSecret, recordFailure tbl username now, true⟩

/-- The session object of src/NODE_RED_AUTH_DEEP_DIVE.md lines 254-262:
user, client, scope, accessToken, expires. -/
structure Session where
  user : String
  client : String
  scope : Perm
  accessToken : String
  expires : Nat

/-- Modelled from the spec: issue of section 4.4 — build the session with
expiresAt = now + ttl and store it keyed by its token. The token itself
comes from a random source and is taken here as an argument. -/
def issueSession (store : List Session) (user client : String) (scope : Perm)
    (token : String) (now ttl : Nat) : Session × List Session :=
  let s : Session := ⟨user, client, scope, token, now + ttl⟩
  (s, s :: store)

/-- Modelled from the spec: lookup of section 4.4 — return the stored
session only when present and now is before its expiry; an expired but not
yet reaped session is treated as absent. -/
def lookupToken (store : List Session) (token : String) (now : Nat) : Option Session :=
  match List.find? (fun s => s.accessToken == token) store with
  | some s => if now < s.expires then some s else none
  | none => none

/-- Modelled from the spec: revoke of section 4.4 — remove the session for
the token; a total function, so revoking an unknown token is not an error. -/
def revokeToken (store : List Session) (token : String) : List Session :=
  store.filter (fun s => !(s.accessToken == token))

/-- Modelled from the spec: the periodic reclamation pass of section 4.4,
removing sessions expired for longer than the grace period. -/
def reapSessions (store : List Session) (now grace : Nat) : List Session :=
  store.filter (fun s => now < s.expires + grace)

/-- The caller-visible shape of a login response (section 7): a uniform
unauthorized outcome for every failure, a token for success. -/
inductive LoginHttpResponse where
  | unauthorized : LoginHttpResponse
  | issued : String → LoginHttpResponse

/-- Modelled from the spec: the orchestrator converts a typed outcome into
the caller-visible response; failures all collapse to unauthorized and carry
no diagnostic detail. -/
def loginResponse (o : LoginOutcome) (token : String) : LoginHttpResponse :=
  match o.result with
  | LoginResult.success _ => LoginHttpResponse.issued token
  | _ => LoginHttpResponse.unauthorized

/-- The audit event emitted per outcome, with the event names of
src/NODE_RED_AUTH_DEEP_DIVE.md lines 538-543. -/
def auditEventOf : LoginResult → String
  | LoginResult.success _ => "auth.login"
  | LoginResult.rateLimited => "auth.login.fail.too-many-attempts"
  | LoginResult.badSecret => "auth.login.fail.credentials"
  | LoginResult.unknownUser => "auth.login.fail.credentials"

/-- A demonstration user table: one configured admin user. -/
def demoUsers : UserTable := [("admin", "correct-horse", Perm.str "*")]

/-- The rate-limiter table after n failed password attempts for admin, all
at time 0. -/
def iterateFailures : Nat → AttemptTable
  | 0 => []
  | n + 1 => (attemptLogin demoUsers (iterateFailures n) 0 "admin" "wrong").attempts


theorem hasPermissionAll_eq_all (sc : Perm) (ps : List Perm) :
    hasPermissionAll sc ps = ps.all (fun p => hasPermission sc p) := by
  induction ps with
  | nil => rfl
  | cons p ps ih => simp [hasPermissionAll, ih]

theorem hasPermissionScopeAny_eq_any (p : String) (ss : List Perm) :
    hasPermissionScopeAny p ss = ss.any (fun s => hasPermissionScope p s) := by
  induction ss with
  | nil => rfl
  | cons s ss ih => simp [hasPermissionScopeAny, ih]

theorem suffixCheck_iff (dv : List Char) (p : List Char) :
    suffixCheck dv p = true ↔
      ∃ q : List Char, q ≠ [] ∧ (∀ c ∈ q, jsRegexDot c = true) ∧ p = q ++ dv := by
  induction p with
  | nil =>
    simp only [suffixCheck]
    constructor
    · intro h; cases h
    · rintro ⟨q, hq, _, habs⟩
      exact absurd (List.append_eq_nil.mp habs.symm).1 hq
  | cons c rest ih =>
    simp only [suffixCheck, Bool.and_eq_true, Bool.or_eq_true, beq_iff_eq, ih]
    constructor
    · rintro ⟨hc, hrest | ⟨q, hq, hall, heq⟩⟩
      · exact ⟨[c], by simp, by simpa using hc, by simp [hrest]⟩
      · refine ⟨c :: q, by simp, ?_, by simp [heq]⟩
        intro x hx
        rcases List.mem_cons.mp hx with h | h
        · simpa [h] using hc
        · exact hall x h
    · rintro ⟨q, hq, hall, heq⟩
      cases q with
      | nil => exact absurd rfl hq
      | cons c0 q0 =>
        simp only [List.cons_append, List.cons.injEq] at heq
        obtain ⟨hc0, hrest⟩ := heq
        subst hc0
        refine ⟨hall c (List.mem_cons_self _ _), ?_⟩
        cases q0 with
        | nil => left; simpa using hrest
        | cons d q1 =>
          right
          exact ⟨d :: q1, by simp, fun x hx => hall x (List.mem_cons_of_mem _ hx), hrest⟩

theorem hasPermissionStrStr_write_iff (p : String) :
    hasPermissionStrStr "write" p = true ↔
      p = "" ∨ p = "write" ∨ ∃ q : List Char, q ≠ [] ∧ (∀ c ∈ q, jsRegexDot c = true) ∧
        p.data = q ++ ('.' :: String.data "write") := by
  by_cases h0 : p = ""
  · subst h0
    exact ⟨fun _ => Or.inl rfl, fun _ => by decide⟩
  · by_cases h1 : p = "write"
    · subst h1
      exact ⟨fun _ => Or.inr (Or.inl rfl), fun _ => by decide⟩
    · have e0 : (p == "") = false := beq_eq_false_iff_ne.mpr h0
      have e1 : ("write" == p) = false := beq_eq_false_iff_ne.mpr fun h => h1 h.symm
      have e2 : (p == "write") = false := beq_eq_false_iff_ne.mpr h1
      have w1 : ("write" == "*") = false := by decide
      have w2 : ("write" == "read") = false := by decide
      have w3 : ("write" == "*.read") = false := by decide
      have w4 : ("write" == "write") = true := by decide
      simp only [hasPermissionStrStr, jsRegexTestDotVerb, e0, e1, e2, w1, w2, w3, w4,
        Bool.or_false, Bool.false_or]
      simp [h0, h1, suffixCheck_iff]

theorem hasPermissionStrStr_star_write_iff (p : String) :
    hasPermissionStrStr "*.write" p = true ↔
      p = "" ∨ p = "write" ∨ ∃ q : List Char, q ≠ [] ∧ (∀ c ∈ q, jsRegexDot c = true) ∧
        p.data = q ++ ('.' :: String.data "write") := by
  by_cases h0 : p = ""
  · subst h0
    exact ⟨fun _ => Or.inl rfl, fun _ => by decide⟩
  · by_cases h1 : p = "write"
    · subst h1
      exact ⟨fun _ => Or.inr (Or.inl rfl), fun _ => by decide⟩
    · by_cases h2 : p = "*.write"
      · subst h2
        exact ⟨fun _ => Or.inr (Or.inr ⟨['*'], by decide, by decide, by decide⟩),
          fun _ => by decide⟩
      · have e0 : (p == "") = false := beq_eq_false_iff_ne.mpr h0
        have e1 : ("*.write" == p) = false := beq_eq_false_iff_ne.mpr fun h => h2 h.symm
        have e2 : (p == "write") = false := beq_eq_false_iff_ne.mpr h1
        have w1 : ("*.write" == "*") = false := by decide
        have w2 : ("*.write" == "read") = false := by decide
        have w3 : ("*.write" == "*.read") = false := by decide
        have w4 : ("*.write" == "write") = false := by decide
        have w5 : ("*.write" == "*.write") = true := by decide
        simp only [hasPermissionStrStr, jsRegexTestDotVerb, e0, e1, e2, w1, w2, w3, w4, w5,
          Bool.or_false, Bool.false_or]
        simp [h0, h1, suffixCheck_iff]

theorem hasPermissionStrStr_read_iff (p : String) :
    hasPermissionStrStr "read" p = true ↔
      p = "" ∨ p = "read" ∨ ∃ q : List Char, q ≠ [] ∧ (∀ c ∈ q, jsRegexDot c = true) ∧
        p.data = q ++ ('.' :: String.data "read") := by
  by_cases h0 : p = ""
  · subst h0
    exact ⟨fun _ => Or.inl rfl, fun _ => by decide⟩
  · by_cases h1 : p = "read"
    · subst h1
      exact ⟨fun _ => Or.inr (Or.inl rfl), fun _ => by decide⟩
    · have e0 : (p == "") = false := beq_eq_false_iff_ne.mpr h0
      have e1 : ("read" == p) = false := beq_eq_false_iff_ne.mpr fun h => h1 h.symm
      have e2 : (p == "read") = false := beq_eq_false_iff_ne.mpr h1
      have w1 : ("read" == "*") = false := by decide
      have w2 : ("read" == "read") = true := by decide
      simp only [hasPermissionStrStr, jsRegexTestDotVerb, e0, e1, e2, w1, w2,
        Bool.or_false, Bool.false_or]
      simp [h0, h1, suffixCheck_iff]

theorem hasPermissionStrStr_star_read_iff (p : String) :
    hasPermissionStrStr "*.read" p = true ↔
      p = "" ∨ p = "read" ∨ ∃ q : List Char, q ≠ [] ∧ (∀ c ∈ q, jsRegexDot c = true) ∧
        p.data = q ++ ('.' :: String.data "read") := by
  by_cases h0 : p = ""
  · subst h0
    exact ⟨fun _ => Or.inl rfl, fun _ => by decide⟩
  · by_cases h1 : p = "read"
    · subst h1
      exact ⟨fun _ => Or.inr (Or.inl rfl), fun _ => by decide⟩
    · by_cases h2 : p = "*.read"
      · subst h2
        exact ⟨fun _ => Or.inr (Or.inr ⟨['*'], by decide, by decide, by decide⟩),
          fun _ => by decide⟩
      · have e0 : (p == "") = false := beq_eq_false_iff_ne.mpr h0
        have e1 : ("*.read" == p) = false := beq_eq_false_iff_ne.mpr fun h => h2 h.symm
        have e2 : (p == "read") = false := beq_eq_false_iff_ne.mpr h1
        have w1 : ("*.read" == "*") = false := by decide
        have w2 : ("*.read" == "read") = false := by decide
        have w3 : ("*.read" == "*.read") = true := by decide
        simp only [hasPermissionStrStr, jsRegexTestDotVerb, e0, e1, e2, w1, w2, w3,
          Bool.or_false, Bool.false_or]
        simp [h0, h1, suffixCheck_iff]

theorem getAttempts_setAttempts (tbl : AttemptTable) (key : String) (ts : List Nat) :
    getAttempts (setAttempts tbl key ts) key = ts := by
  induction tbl with
  | nil => simp [getAttempts, setAttempts, List.find?]
  | cons e rest ih =>
    by_cases h : e.1 == key
    · simp [setAttempts, h, getAttempts, List.find?]
    · simp only [setAttempts, h, Bool.false_eq_true, if_false]
      simpa [getAttempts, List.find?, h] using ih

theorem recentFailureCount_recordFailure (tbl : AttemptTable) (key : String) (now : Nat) :
    recentFailureCount (recordFailure tbl key now) key now
      = recentFailureCount tbl key now + 1 := by
  simp only [recentFailureCount, recordFailure, getAttempts_setAttempts, pruneOld,
    List.filter_append, List.filter_filter, Bool.and_self, List.length_append]
  simp [Nat.sub_self, loginSignInWindow]

theorem getAttempts_resetAttempts (tbl : AttemptTable) (key : String) :
    getAttempts (resetAttempts tbl key) key = [] := by
  induction tbl with
  | nil => rfl
  | cons e rest ih =>
    by_cases h : e.1 == key
    · simpa [resetAttempts, h] using ih
    · simpa [resetAttempts, getAttempts, List.find?, h] using ih

theorem find?_revokeToken (store : List Session) (token : String) :
    List.find? (fun s => s.accessToken == token) (revokeToken store token) = none := by
  rw [List.find?_eq_none]
  intro s hs
  have hmem := List.of_mem_filter hs
  simpa using hmem

/-- Claim C1, counterexample: the empty capability. The code grants it under
scope write by the empty-permission rule, yet it is neither exactly write
nor does it end in dot-write, so the iff of the claim fails at C = "". -/
theorem hasPermission_write_empty_counterexample :
    hasPermission (Perm.str "write") (Perm.str "") = true ∧
    "" ≠ "write" ∧ String.endsWith "" ".write" = false := by
  refine ⟨by decide, by decide, by decide⟩

/-- Claim C1, amended: for scope write or scope star-dot-write, a capability
C is granted iff C is empty, C is exactly write, or C is a nonempty run of
non-line-terminator characters followed by dot-write; in particular
flows.read and context.read are denied. -/
theorem hasPermission_write_scope_characterization :
    (∀ p : String,
      hasPermission (Perm.str "write") (Perm.str p) = true ↔
        p = "" ∨ p = "write" ∨ ∃ q : List Char, q ≠ [] ∧ (∀ c ∈ q, jsRegexDot c = true) ∧
          p.data = q ++ ('.' :: String.data "write")) ∧
    (∀ p : String,
      hasPermission (Perm.str "*.write") (Perm.str p) = true ↔
        p = "" ∨ p = "write" ∨ ∃ q : List Char, q ≠ [] ∧ (∀ c ∈ q, jsRegexDot c = true) ∧
          p.data = q ++ ('.' :: String.data "write")) ∧
    hasPermission (Perm.str "write") (Perm.str "flows.read") = false ∧
    hasPermission (Perm.str "write") (Perm.str "context.read") = false :=
  ⟨fun p => hasPermissionStrStr_write_iff p,
   fun p => hasPermissionStrStr_star_write_iff p,
   by decide, by decide⟩

/-- Claim C1, witness: the characterization grants flows.write under scope
write. -/
theorem hasPermission_write_scope_characterization_witness :
    hasPermission (Perm.str "write") (Perm.str "flows.write") = true :=
  (hasPermission_write_scope_characterization.1 "flows.write").mpr
    (Or.inr (Or.inr ⟨['f', 'l', 'o', 'w', 's'], by decide, by decide, by decide⟩))

/-- Claim C6, counterexample: the empty capability. The code grants it under
scope read by the empty-permission rule, yet it is neither exactly read nor
does it end in dot-read, so the iff of the claim fails at C = "". -/
theorem hasPermission_read_empty_counterexample :
    hasPermission (Perm.str "read") (Perm.str "") = true ∧
    "" ≠ "read" ∧ String.endsWith "" ".read" = false := by
  refine ⟨by decide, by decide, by decide⟩

/-- Claim C6, amended: for scope read or scope star-dot-read, a capability C
is granted iff C is empty, C is exactly read, or C is a nonempty run of
non-line-terminator characters followed by dot-read; in particular
flows.read and read are granted and flows.write is denied. -/
theorem hasPermission_read_scope_characterization :
    (∀ p : String,
      hasPermission (Perm.str "read") (Perm.str p) = true ↔
        p = "" ∨ p = "read" ∨ ∃ q : List Char, q ≠ [] ∧ (∀ c ∈ q, jsRegexDot c = true) ∧
          p.data = q ++ ('.' :: String.data "read")) ∧
    (∀ p : String,
      hasPermission (Perm.str "*.read") (Perm.str p) = true ↔
        p = "" ∨ p = "read" ∨ ∃ q : List Char, q ≠ [] ∧ (∀ c ∈ q, jsRegexDot c = true) ∧
          p.data = q ++ ('.' :: String.data "read")) ∧
    hasPermission (Perm.str "read") (Perm.str "flows.read") = true ∧
    hasPermission (Perm.str "read") (Perm.str "read") = true ∧
    hasPermission (Perm.str "read") (Perm.str "flows.write") = false :=
  ⟨fun p => hasPermissionStrStr_read_iff p,
   fun p => hasPermissionStrStr_star_read_iff p,
   by decide, by decide, by decide⟩

/-- Claim C6, witness: the characterization grants context.read under scope
read. -/
theorem hasPermission_read_scope_characterization_witness :
    hasPermission (Perm.str "read") (Perm.str "context.read") = true :=
  (hasPermission_read_scope_characterization.1 "context.read").mpr
    (Or.inr (Or.inr ⟨['c', 'o', 'n', 't', 'e', 'x', 't'], by decide, by decide, by decide⟩))

/-- Claim C2: an array of required capabilities is a conjunction over its
members; an array of granted scopes is, for a nonempty string capability, a
disjunction over its members; when both sides are arrays the capability
rule applies first (the conjunction is outermost); and the three concrete
examples of the specification hold. -/
theorem hasPermission_set_rules :
    (∀ (sc : Perm) (ps : List Perm),
        hasPermission sc (Perm.arr ps) = ps.all (fun p => hasPermission sc p)) ∧
    (∀ (ss : List Perm) (p : String), p ≠ "" →
        hasPermission (Perm.arr ss) (Perm.str p)
          = ss.any (fun s => hasPermission s (Perm.str p))) ∧
    (∀ (ss ps : List Perm),
        hasPermission (Perm.arr ss) (Perm.arr ps)
          = ps.all (fun p => hasPermission (Perm.arr ss) p)) ∧
    hasPermission (Perm.arr [Perm.str "flows.read"])
      (Perm.arr [Perm.str "flows.read", Perm.str "nodes.read"]) = false ∧
    hasPermission (Perm.arr [Perm.str "read", Perm.str "flows.write"])
      (Perm.str "flows.write") = true ∧
    hasPermission (Perm.arr [Perm.str "flows.read", Perm.str "nodes.read"])
      (Perm.str "flows.read") = true := by
  refine ⟨fun sc ps => hasPermissionAll_eq_all sc ps, ?_,
    fun ss ps => hasPermissionAll_eq_all (Perm.arr ss) ps, by decide, by decide, by decide⟩
  intro ss p hp
  have e0 : (p == "") = false := beq_eq_false_iff_ne.mpr hp
  show hasPermissionScope p (Perm.arr ss) = _
  simp only [hasPermissionScope, e0, Bool.false_eq_true, if_false]
  exact hasPermissionScopeAny_eq_any p ss

/-- Claim C2, witness: the disjunction rule evaluated at a concrete scope
array and capability. -/
theorem hasPermission_set_rules_witness :
    hasPermission (Perm.arr [Perm.str "read", Perm.str "flows.write"]) (Perm.str "flows.write")
      = [Perm.str "read", Perm.str "flows.write"].any
          (fun s => hasPermission s (Perm.str "flows.write")) :=
  hasPermission_set_rules.2.1 [Perm.str "read", Perm.str "flows.write"] "flows.write"
    (by decide)

/-- Claim C10: the empty scope array denies every nonempty string
capability, while the empty capability is granted even against the empty
scope array, because the empty-permission rule fires before the scope is
inspected. -/
theorem hasPermission_empty_scope_array :
    (∀ p : String, p ≠ "" → hasPermission (Perm.arr []) (Perm.str p) = false) ∧
    hasPermission (Perm.arr []) (Perm.str "") = true := by
  refine ⟨?_, by decide⟩
  intro p hp
  have e0 : (p == "") = false := beq_eq_false_iff_ne.mpr hp
  show hasPermissionScope p (Perm.arr []) = false
  simp only [hasPermissionScope, e0, Bool.false_eq_true, if_false]
  rfl

/-- Claim C10, witness: a concrete nonempty capability against the empty
scope array. -/
theorem hasPermission_empty_scope_array_witness :
    hasPermission (Perm.arr []) (Perm.str "flows.read") = false :=
  hasPermission_empty_scope_array.1 "flows.read" (by decide)

/-- Claim C9: the Cognito permission mapping returns one of exactly three
scope values, never an empty scope; a user with no email and no groups gets
read. -/
theorem mapCognito_scope_trichotomy :
    (∀ u : UserInfo,
        mapCognitoToNodeRedPermissions u = Perm.str "*" ∨
        mapCognitoToNodeRedPermissions u =
          Perm.arr [Perm.str "flows.read", Perm.str "flows.write", Perm.str "nodes.read"] ∨
        mapCognitoToNodeRedPermissions u = Perm.str "read") ∧
    (∀ u : UserInfo,
        mapCognitoToNodeRedPermissions u ≠ Perm.str "" ∧
        mapCognitoToNodeRedPermissions u ≠ Perm.arr []) ∧
    mapCognitoToNodeRedPermissions ⟨none, none⟩ = Perm.str "read" := by
  have tri : ∀ u : UserInfo,
      mapCognitoToNodeRedPermissions u = Perm.str "*" ∨
      mapCognitoToNodeRedPermissions u =
        Perm.arr [Perm.str "flows.read", Perm.str "flows.write", Perm.str "nodes.read"] ∨
      mapCognitoToNodeRedPermissions u = Perm.str "read" := by
    intro u
    simp only [mapCognitoToNodeRedPermissions]
    split
    · exact Or.inl rfl
    · split
      · exact Or.inr (Or.inl rfl)
      · exact Or.inr (Or.inr rfl)
  refine ⟨tri, ?_, rfl⟩
  intro u
  rcases tri u with h | h | h <;> rw [h]
  · refine ⟨fun hc => ?_, fun hc => by cases hc⟩
    injection hc with h2
    exact absurd h2 (by decide)
  · refine ⟨(fun hc => by cases hc), fun hc => ?_⟩
    injection hc with h2
    cases h2
  · refine ⟨fun hc => ?_, fun hc => by cases hc⟩
    injection hc with h2
    exact absurd h2 (by decide)

/-- Claim C3: a blocked key is rejected as RateLimited with no hash
comparison; each failure recorded at now raises the in-window count by one;
a successful verification resets the key so the count returns to zero, and
a failure after the reset counts one; the defaults are a 600000 ms window
and five attempts; and the concrete six-attempt scenario behaves as
claimed. -/
theorem rate_limit_lockout_and_reset :
    (∀ (users : UserTable) (tbl : AttemptTable) (now : Nat) (u s : String),
        isBlocked tbl u now = true →
        attemptLogin users tbl now u s = ⟨LoginResult.rateLimited, tbl, false⟩) ∧
    (∀ (tbl : AttemptTable) (u : String) (now : Nat),
        recentFailureCount (recordFailure tbl u now) u now
          = recentFailureCount tbl u now + 1) ∧
    (∀ (users : UserTable) (tbl : AttemptTable) (now : Nat) (u s storedHash : String)
        (scope : Perm),
        isBlocked tbl u now = false → findUser users u = some (storedHash, scope) →
        compareSecret storedHash s = true →
        attemptLogin users tbl now u s
          = ⟨LoginResult.success scope, resetAttempts tbl u, true⟩) ∧
    (∀ (tbl : AttemptTable) (u : String) (now : Nat),
        recentFailureCount (resetAttempts tbl u) u now = 0) ∧
    loginSignInWindow = 600000 ∧ maxAttempts = 5 ∧
    (attemptLogin demoUsers (iterateFailures 4) 0 "admin" "wrong").result
      = LoginResult.badSecret ∧
    (attemptLogin demoUsers (iterateFailures 4) 0 "admin" "wrong").hashInvoked = true ∧
    (attemptLogin demoUsers (iterateFailures 5) 0 "admin" "wrong").result
      = LoginResult.rateLimited ∧
    (attemptLogin demoUsers (iterateFailures 5) 0 "admin" "wrong").hashInvoked = false ∧
    (attemptLogin demoUsers (iterateFailures 4) 0 "admin" "correct-horse").result
      = LoginResult.success (Perm.str "*") ∧
    recentFailureCount
      (recordFailure
        (attemptLogin demoUsers (iterateFailures 4) 0 "admin" "correct-horse").attempts
        "admin" 7) "admin" 7 = 1 := by
  refine ⟨?_, recentFailureCount_recordFailure, ?_, ?_, rfl, rfl,
    rfl, rfl, rfl, rfl, rfl, rfl⟩
  · intro users tbl now u s h
    simp [attemptLogin, h]
  · intro users tbl now u s storedHash scope hb hf hc
    simp [attemptLogin, hb, hf, hc]
  · intro tbl u now
    simp [recentFailureCount, getAttempts_resetAttempts, pruneOld]

/-- Claim C3, witness: a concrete blocked table with five recorded failures
inside the window rejects the next attempt without hash comparison. -/
theorem rate_limit_lockout_and_reset_witness :
    isBlocked [("admin", [0, 0, 0, 0, 0])] "admin" 0 = true ∧
    attemptLogin demoUsers [("admin", [0, 0, 0, 0, 0])] 0 "admin" "correct-horse"
      = ⟨LoginResult.rateLimited, [("admin", [0, 0, 0, 0, 0])], false⟩ :=
  ⟨rfl, rate_limit_lockout_and_reset.1 demoUsers [("admin", [0, 0, 0, 0, 0])] 0
    "admin" "correct-horse" rfl⟩

/-- Claim C4: lookup returns a session exactly when it is stored and now is
strictly before its expiry, in every state, whether or not the reclamation
pass has run; a stored but expired session is never returned. -/
theorem lookupToken_expiry_characterization :
    (∀ (store : List Session) (token : String) (now : Nat) (s : Session),
        lookupToken store token now = some s ↔
          List.find? (fun x => x.accessToken == token) store = some s ∧ now < s.expires) ∧
    (∀ (store : List Session) (token : String) (now : Nat) (s : Session),
        List.find? (fun x => x.accessToken == token) store = some s → s.expires ≤ now →
        lookupToken store token now = none) := by
  have char : ∀ (store : List Session) (token : String) (now : Nat) (s : Session),
      lookupToken store token now = some s ↔
        List.find? (fun x => x.accessToken == token) store = some s ∧ now < s.expires := by
    intro store token now s
    unfold lookupToken
    cases h : List.find? (fun x => x.accessToken == token) store with
    | none => simp
    | some s0 =>
      by_cases hlt : now < s0.expires
      · simp only [hlt, if_pos, Option.some.injEq]
        constructor
        · rintro rfl
          exact ⟨rfl, hlt⟩
        · rintro ⟨hs, _⟩
          exact hs
      · simp only [hlt, if_false, Option.some.injEq]
        constructor
        · rintro ⟨⟩
        · rintro ⟨hs, hlt2⟩
          subst hs
          exact absurd hlt2 hlt
  refine ⟨char, ?_⟩
  intro store token now s hf hle
  cases h : lookupToken store token now with
  | none => rfl
  | some s2 =>
    obtain ⟨hf2, hlt⟩ := (char store token now s2).mp h
    rw [hf] at hf2
    injection hf2 with hf2
    subst hf2
    exact absurd hlt (Nat.not_lt.mpr hle)

/-- Claim C4, witness: a stored session whose expiry has passed is treated
as absent by lookup even though it is still in the store. -/
theorem lookupToken_expiry_characterization_witness :
    lookupToken [⟨"admin", "node-red-editor", Perm.str "*", "tok", 5⟩] "tok" 10 = none :=
  lookupToken_expiry_characterization.2
    [⟨"admin", "node-red-editor", Perm.str "*", "tok", 5⟩] "tok" 10
    ⟨"admin", "node-red-editor", Perm.str "*", "tok", 5⟩ rfl (by decide)

/-- Claim C7: issuing a session and immediately looking its token up yields
the very session issued, bound to the same user, client and scope; a token
with no stored session yields absence. -/
theorem issue_then_lookup_roundtrip :
    (∀ (store : List Session) (user client : String) (scope : Perm) (token : String)
        (now ttl : Nat), 0 < ttl →
        lookupToken (issueSession store user client scope token now ttl).2 token now
          = some (issueSession store user client scope token now ttl).1 ∧
        (issueSession store user client scope token now ttl).1.user = user ∧
        (issueSession store user client scope token now ttl).1.client = client ∧
        (issueSession store user client scope token now ttl).1.scope = scope) ∧
    (∀ (store : List Session) (token : String) (now : Nat),
        List.find? (fun x => x.accessToken == token) store = none →
        lookupToken store token now = none) := by
  constructor
  · intro store user client scope token now ttl httl
    refine ⟨?_, rfl, rfl, rfl⟩
    have hfind : List.find? (fun x => x.accessToken == token)
        (issueSession store user client scope token now ttl).2
          = some (issueSession store user client scope token now ttl).1 := by
      simp [issueSession, List.find?]
    unfold lookupToken
    rw [hfind]
    simp [issueSession, Nat.lt_add_of_pos_right httl]
  · intro store token now h
    unfold lookupToken
    rw [h]

/-- Claim C7, witness: a concrete issue-then-lookup round trip and a lookup
of a token that was never issued. -/
theorem issue_then_lookup_roundtrip_witness :
    lookupToken (issueSession [] "admin" "node-red-editor" (Perm.str "*") "tok123"
        100 604800).2 "tok123" 100
      = some (issueSession [] "admin" "node-red-editor" (Perm.str "*") "tok123"
        100 604800).1 ∧
    lookupToken [] "unknown" 0 = none :=
  ⟨(issue_then_lookup_roundtrip.1 [] "admin" "node-red-editor" (Perm.str "*") "tok123"
      100 604800 (by decide)).1,
   issue_then_lookup_roundtrip.2 [] "unknown" 0 rfl⟩

/-- Claim C8: after revoke the token is immediately absent from lookup;
revoking twice equals revoking once; and revoking a token with no stored
session leaves the store unchanged. -/
theorem revokeToken_spec :
    (∀ (store : List Session) (token : String) (now : Nat),
        lookupToken (revokeToken store token) token now = none) ∧
    (∀ (store : List Session) (token : String),
        revokeToken (revokeToken store token) token = revokeToken store token) ∧
    (∀ (store : List Session) (token : String),
        List.find? (fun s => s.accessToken == token) store = none →
        revokeToken store token = store) := by
  refine ⟨?_, ?_, ?_⟩
  · intro store token now
    unfold lookupToken
    rw [find?_revokeToken]
  · intro store token
    simp [revokeToken, List.filter_filter]
  · intro store token h
    rw [List.find?_eq_none] at h
    apply List.filter_eq_self.mpr
    intro s hs
    simpa using h s hs

/-- Claim C8, witness: revoking an issued token hides it from lookup, and
revoking on an empty store is a no-op. -/
theorem revokeToken_spec_witness :
    lookupToken (revokeToken [⟨"admin", "node-red-editor", Perm.str "*", "tok", 99⟩] "tok")
        "tok" 0 = none ∧
    revokeToken ([] : List Session) "tok" = [] :=
  ⟨revokeToken_spec.1 [⟨"admin", "node-red-editor", Perm.str "*", "tok", 99⟩] "tok" 0,
   revokeToken_spec.2.2 [] "tok" rfl⟩

/-- Claim C5: a run rejected as RateLimited and a run rejected as BadSecret
produce the same caller-visible response, the uniform unauthorized shape
with no diagnostic detail; only their audit events differ. -/
theorem rate_limited_badsecret_indistinguishable
    (users1 : UserTable) (tbl1 : AttemptTable) (now1 : Nat) (u1 s1 t1 : String)
    (users2 : UserTable) (tbl2 : AttemptTable) (now2 : Nat) (u2 s2 t2 : String)
    (h1 : (attemptLogin users1 tbl1 now1 u1 s1).result = LoginResult.rateLimited)
    (h2 : (attemptLogin users2 tbl2 now2 u2 s2).result = LoginResult.badSecret) :
    loginResponse (attemptLogin users1 tbl1 now1 u1 s1) t1 = LoginHttpResponse.unauthorized ∧
    loginResponse (attemptLogin users2 tbl2 now2 u2 s2) t2 = LoginHttpResponse.unauthorized ∧
    loginResponse (attemptLogin users1 tbl1 now1 u1 s1) t1
      = loginResponse (attemptLogin users2 tbl2 now2 u2 s2) t2 ∧
    auditEventOf (attemptLogin users1 tbl1 now1 u1 s1).result
      ≠ auditEventOf (attemptLogin users2 tbl2 now2 u2 s2).result := by
  refine ⟨?_, ?_, ?_, ?_⟩ <;> simp [loginResponse, auditEventOf, h1, h2]

/-- Claim C5, witness: a concrete rate-limited run and a concrete
wrong-password run compared end to end. -/
theorem rate_limited_badsecret_indistinguishable_witness :
    loginResponse (attemptLogin demoUsers [("admin", [0, 0, 0, 0, 0])] 0 "admin" "x") "t1"
      = LoginHttpResponse.unauthorized ∧
    loginResponse (attemptLogin demoUsers [] 0 "admin" "nope") "t2"
      = LoginHttpResponse.unauthorized ∧
    loginResponse (attemptLogin demoUsers [("admin", [0, 0, 0, 0, 0])] 0 "admin" "x") "t1"
      = loginResponse (attemptLogin demoUsers [] 0 "admin" "nope") "t2" ∧
    auditEventOf (attemptLogin demoUsers [("admin", [0, 0, 0, 0, 0])] 0 "admin" "x").result
      ≠ auditEventOf (attemptLogin demoUsers [] 0 "admin" "nope").result :=
  rate_limited_badsecret_indistinguishable demoUsers [("admin", [0, 0, 0, 0, 0])] 0
    "admin" "x" "t1" demoUsers [] 0 "admin" "nope" "t2" rfl rfl

end NodeRedAuth
